import Mathlib

/-!
Shallow embedding of the Jira-Scraper-ETL extraction core (src/extract.py):
the checkpoint store (load_checkpoint / save_checkpoint), the incremental
JQL query builder, and the paginated fetch loop with its retry/backoff
policy (fetch_issues_for_project).  The remote API is represented by a
script of request outcomes; sleeps, request counts and persisted
checkpoints are recorded as explicit traces.
-/

/-- The enhanced checkpoint record stored as JSON:
start_at is the next page offset, last_updated the watermark timestamp. -/
structure Checkpoint where
  start_at : Nat
  last_updated : Option String
deriving DecidableEq, Repr

/-- Content of the JSON checkpoint file data/checkpoints/PROJECT.json:
either a parseable checkpoint record or corrupt (json.JSONDecodeError / IOError). -/
inductive JsonRecord where
  | valid : Checkpoint → JsonRecord
  | corrupt : JsonRecord
deriving DecidableEq, Repr

/-- Content of the legacy text checkpoint file data/checkpoints/PROJECT.txt:
either a parseable integer offset or corrupt (ValueError / IOError). -/
inductive LegacyRecord where
  | valid : Nat → LegacyRecord
  | corrupt : LegacyRecord
deriving DecidableEq, Repr

/-- Durable checkpoint state for one project: the optional JSON file and the
optional legacy text file (none = file does not exist). -/
structure CheckpointStore where
  jsonFile : Option JsonRecord
  legacyFile : Option LegacyRecord
deriving DecidableEq, Repr

/-- load_checkpoint (extract.py lines 53-88): try the JSON checkpoint first,
fall back to the legacy text checkpoint when the JSON file is absent or
unreadable, and finally default to start_at 0 with no watermark. -/
def load_checkpoint (store : CheckpointStore) : Checkpoint :=
  match store.jsonFile with
  | some (JsonRecord.valid cp) => cp
  | _ =>
    match store.legacyFile with
    | some (LegacyRecord.valid n) => ⟨n, none⟩
    | _ => ⟨0, none⟩

/-- save_checkpoint (extract.py lines 90-120): when last_updated is None the
previously persisted value is loaded and kept; both the JSON file and the
legacy text file are rewritten. -/
def save_checkpoint (store : CheckpointStore) (start_at : Nat)
    (last_updated : Option String) : CheckpointStore :=
  let lu : Option String :=
    match last_updated with
    | none => (load_checkpoint store).last_updated
    | some w => some w
  { jsonFile := some (JsonRecord.valid ⟨start_at, lu⟩),
    legacyFile := some (LegacyRecord.valid start_at) }

/-- Python truthiness of an optional string: None and the empty string are
falsy, every other string is truthy. -/
def pyTruthy : Option String → Bool
  | none => false
  | some s => s != ""

/-- The date portion of an ISO timestamp, as computed by
last_updated.split(the letter T)[0] in extract.py line 182. -/
def datePart (s : String) : String :=
  s.takeWhile (fun c => c != 'T')

/-- Lexicographic comparison of character lists by code point, the ordering
Python uses when comparing str values (extract.py line 350 compares updated
timestamps with the plain string greater-than).  Structurally recursive so
that concrete runs evaluate inside the kernel. -/
def pyStrLtList : List Char → List Char → Bool
  | [], [] => false
  | [], _ :: _ => true
  | _ :: _, [] => false
  | a :: as, b :: bs =>
    if a < b then true
    else if b < a then false
    else pyStrLtList as bs

/-- Python string less-than, lexicographic by code point. -/
def pyStrLt (a b : String) : Bool :=
  pyStrLtList a.data b.data

/-- The JQL filter built in extract.py lines 178-188 from the incremental
flag, the checkpoint watermark and the formatted lookback date
(datetime.now() - timedelta(days=lookback_days)). -/
def buildJql (proj : String) (incremental : Bool) (last_updated : Option String)
    (lookbackDate : String) : String :=
  let base := "project=" ++ proj
  if incremental && pyTruthy last_updated then
    base ++ " AND updated >= \x27" ++ datePart (last_updated.getD "") ++ "\x27"
  else if incremental then
    base ++ " AND updated >= \x27" ++ lookbackDate ++ "\x27"
  else
    base

/-- One fetched issue, reduced to the only field the extraction core reads:
fields.updated (none when the field is absent). -/
structure Issue where
  updated : Option String
deriving DecidableEq, Repr

/-- Parsed body of a 200 response: data.issues and data.total
(none when the total key is absent). -/
structure PageData where
  issues : List Issue
  total : Option Nat
deriving DecidableEq, Repr

/-- Outcome of one HTTP request attempt: a response with a status code and a
(parsed) body, a request timeout, or another network-level RequestException. -/
inductive Outcome where
  | http : Nat → PageData → Outcome
  | timeout : Outcome
  | netError : Outcome
deriving DecidableEq, Repr

/-- Configuration recognized by fetch_issues_for_project
(extract.py lines 151-159), with the cfg.get defaults. -/
structure Config where
  max_results : Nat := 50
  polite_delay : Nat := 2
  rate_limit_sleep : Nat := 30
  backoff_base : Nat := 2
  max_retries : Nat := 5
  incremental : Bool := false
  lookback_days : Nat := 7
deriving DecidableEq, Repr

/-- The message of the RuntimeError raised on retry exhaustion
(extract.py line 271): it names the project and the startAt offset. -/
def retriesExhaustedMsg (proj : String) (startAt : Nat) : String :=
  "Max retries exceeded for project " ++ proj ++ " at startAt=" ++ toString startAt

/-- Result of the inner request/retry loop for one page. -/
inductive ReqResult where
  | success : PageData → ReqResult
  | exhausted : String → ReqResult
  | propagated : ReqResult
  | pending : ReqResult
deriving DecidableEq, Repr

/-- Trace of the inner request/retry loop: its result, the retry sleeps it
performed in order, and the number of request attempts it made. -/
structure PageFetchTrace where
  result : ReqResult
  sleeps : List Nat
  requests : Nat
deriving DecidableEq, Repr

/-- The inner while-loop of fetch_issues_for_project (extract.py lines
208-273) over a script of request outcomes, starting at a given attempt
counter value.  Status 200 breaks with the parsed data; 429 sleeps the fixed
rate_limit_sleep and increments attempt; 5xx and timeouts sleep
backoff_base ^ attempt and increment attempt; other statuses of at least 400
raise HTTPError, which the RequestException handler catches: it re-raises
when attempt has reached max_retries and otherwise backs off; a non-200
status below 400 falls through raise_for_status without incrementing.  After
every classified-retry branch the counter is checked and a RuntimeError is
raised once attempt exceeds max_retries.  An empty script leaves the loop
pending (the real loop would still be requesting). -/
def fetchPage (cfg : Config) (proj : String) (startAt : Nat) :
    List Outcome → Nat → PageFetchTrace
  | [], _ => ⟨ReqResult.pending, [], 0⟩
  | o :: rest, attempt =>
    match o with
    | Outcome.http status d =>
      if status = 200 then
        ⟨ReqResult.success d, [], 1⟩
      else if status = 429 then
        if attempt + 1 > cfg.max_retries then
          ⟨ReqResult.exhausted (retriesExhaustedMsg proj startAt), [cfg.rate_limit_sleep], 1⟩
        else
          let t := fetchPage cfg proj startAt rest (attempt + 1)
          ⟨t.result, cfg.rate_limit_sleep :: t.sleeps, t.requests + 1⟩
      else if 500 ≤ status ∧ status < 600 then
        if attempt + 1 > cfg.max_retries then
          ⟨ReqResult.exhausted (retriesExhaustedMsg proj startAt), [cfg.backoff_base ^ attempt], 1⟩
        else
          let t := fetchPage cfg proj startAt rest (attempt + 1)
          ⟨t.result, cfg.backoff_base ^ attempt :: t.sleeps, t.requests + 1⟩
      else if 400 ≤ status then
        if attempt ≥ cfg.max_retries then
          ⟨ReqResult.propagated, [], 1⟩
        else
          let t := fetchPage cfg proj startAt rest (attempt + 1)
          ⟨t.result, cfg.backoff_base ^ attempt :: t.sleeps, t.requests + 1⟩
      else
        if attempt > cfg.max_retries then
          ⟨ReqResult.exhausted (retriesExhaustedMsg proj startAt), [], 1⟩
        else
          let t := fetchPage cfg proj startAt rest attempt
          ⟨t.result, t.sleeps, t.requests + 1⟩
    | Outcome.timeout =>
      if attempt + 1 > cfg.max_retries then
        ⟨ReqResult.exhausted (retriesExhaustedMsg proj startAt), [cfg.backoff_base ^ attempt], 1⟩
      else
        let t := fetchPage cfg proj startAt rest (attempt + 1)
        ⟨t.result, cfg.backoff_base ^ attempt :: t.sleeps, t.requests + 1⟩
    | Outcome.netError =>
      if attempt ≥ cfg.max_retries then
        ⟨ReqResult.propagated, [], 1⟩
      else
        let t := fetchPage cfg proj startAt rest (attempt + 1)
        ⟨t.result, cfg.backoff_base ^ attempt :: t.sleeps, t.requests + 1⟩

/-- The watermark-tracking step of extract.py lines 348-351: a record whose
updated field is absent or falsy is ignored; otherwise the running maximum is
replaced when unset or when updated compares greater as a plain string. -/
def trackLatest (latest : Option String) (updated : Option String) : Option String :=
  match updated with
  | none => latest
  | some u =>
    if (u != "") && (!(pyTruthy latest) || pyStrLt (latest.getD "") u) then some u
    else latest

/-- save_raw_issues (extract.py lines 39-51): writing the page file for an
offset overwrites any previous page stored at the same offset. -/
def sinkStore (sink : List (Nat × List Issue)) (off : Nat) (issues : List Issue) :
    List (Nat × List Issue) :=
  (off, issues) :: sink.filter (fun p => p.fst != off)

/-- The loop-termination test of extract.py line 368:
stop when total is not None and start_at has reached it. -/
def shouldStop (total : Option Nat) (start_at : Nat) : Bool :=
  match total with
  | some t => decide (t ≤ start_at)
  | none => false

/-- Terminal state of one extraction run. -/
inductive RunOutcome where
  | done : RunOutcome
  | aborted : String → RunOutcome
  | fatal : RunOutcome
  | outOfScript : RunOutcome
deriving DecidableEq, Repr

/-- Trace of the outer pagination loop: the offsets at which page requests
were issued, the checkpoint persisted after each ingested page, the page
sink, the final checkpoint store and the terminal state. -/
structure GoResult where
  requests : List Nat
  cpTrace : List Checkpoint
  sink : List (Nat × List Issue)
  store : CheckpointStore
  outcome : RunOutcome
deriving DecidableEq, Repr

/-- The outer while-loop of fetch_issues_for_project (extract.py lines
200-370): request a page at the cursor with a fresh attempt counter; on
success update total from the body, stop on an empty page, otherwise fold the
watermark over the records of the page, store the raw page, advance the
cursor by the record count, persist the checkpoint and stop once the cursor
reaches the last known total. -/
def fetchLoop (cfg : Config) (proj : String) :
    List (List Outcome) → Nat → Option String → Option Nat → CheckpointStore →
    List (Nat × List Issue) → GoResult
  | [], _, _, _, store, sink => ⟨[], [], sink, store, RunOutcome.outOfScript⟩
  | outs :: rest, start_at, latest, total, store, sink =>
    match (fetchPage cfg proj start_at outs 0).result with
    | ReqResult.pending => ⟨[start_at], [], sink, store, RunOutcome.outOfScript⟩
    | ReqResult.exhausted msg => ⟨[start_at], [], sink, store, RunOutcome.aborted msg⟩
    | ReqResult.propagated => ⟨[start_at], [], sink, store, RunOutcome.fatal⟩
    | ReqResult.success d =>
      let total' : Option Nat :=
        match d.total with
        | some t => some t
        | none => total
      if d.issues.isEmpty then ⟨[start_at], [], sink, store, RunOutcome.done⟩
      else
        let latest' := d.issues.foldl (fun acc i => trackLatest acc i.updated) latest
        let sink' := sinkStore sink start_at d.issues
        let start' := start_at + d.issues.length
        let store' := save_checkpoint store start' latest'
        let cp := load_checkpoint store'
        if shouldStop total' start' then
          ⟨[start_at], [cp], sink', store', RunOutcome.done⟩
        else
          let g := fetchLoop cfg proj rest start' latest' total' store' sink'
          ⟨start_at :: g.requests, cp :: g.cpTrace, g.sink, g.store, g.outcome⟩

/-- Result of one call of fetch_issues_for_project: the JQL filter computed
once at the start of the run plus the loop trace. -/
structure RunResult where
  jql : String
  requests : List Nat
  cpTrace : List Checkpoint
  sink : List (Nat × List Issue)
  store : CheckpointStore
  outcome : RunOutcome
deriving DecidableEq, Repr

/-- fetch_issues_for_project (extract.py lines 122-370): load the checkpoint,
build the JQL filter once from the persisted watermark, then run the
pagination loop starting at the persisted cursor with the run-local watermark
maximum and the known total both unset.  nowMinusDays d stands for the
formatted date of datetime.now() minus d days. -/
def runProject (cfg : Config) (proj : String) (nowMinusDays : Nat → String)
    (script : List (List Outcome)) (store0 : CheckpointStore) : RunResult :=
  let checkpoint := load_checkpoint store0
  let jql := buildJql proj cfg.incremental checkpoint.last_updated
    (nowMinusDays cfg.lookback_days)
  let g := fetchLoop cfg proj script checkpoint.start_at none none store0 []
  ⟨jql, g.requests, g.cpTrace, g.sink, g.store, g.outcome⟩

/-- The issues carried by a scripted outcome (empty for non-HTTP outcomes). -/
def issuesOf : Outcome → List Issue
  | Outcome.http _ d => d.issues
  | _ => []

/-- Order on optional watermarks: an absent watermark is below everything,
present watermarks compare as strings. -/
def optLe (a b : Option String) : Prop :=
  match a, b with
  | none, _ => True
  | some _, none => False
  | some x, some y => pyStrLt x y = true ∨ x = y

instance : ∀ a b : Option String, Decidable (optLe a b) := fun a b =>
  match a, b with
  | none, _ => isTrue trivial
  | some _, none => isFalse (fun h => h)
  | some x, some y => inferInstanceAs (Decidable (pyStrLt x y = true ∨ x = y))

lemma pyStrLtList_iff : ∀ (as bs : List Char),
    pyStrLtList as bs = true ↔ List.Lex (· < ·) as bs := by
  intro as
  induction as with
  | nil =>
    intro bs
    cases bs with
    | nil =>
      simp only [pyStrLtList, Bool.false_eq_true, false_iff]
      intro h
      cases h
    | cons b bs =>
      simp only [pyStrLtList, true_iff]
      exact List.Lex.nil
  | cons a as ih =>
    intro bs
    cases bs with
    | nil =>
      simp only [pyStrLtList, Bool.false_eq_true, false_iff]
      intro h
      cases h
    | cons b bs =>
      by_cases hab : a < b
      · simp only [pyStrLtList, if_pos hab, true_iff]
        exact List.Lex.rel hab
      · by_cases hba : b < a
        · simp only [pyStrLtList, if_neg hab, if_pos hba, Bool.false_eq_true, false_iff]
          intro h
          cases h with
          | cons h3 => exact absurd hba (lt_irrefl a)
          | rel h4 => exact absurd h4 hab
        · have heq : a = b := le_antisymm (le_of_not_lt hba) (le_of_not_lt hab)
          subst heq
          simp only [pyStrLtList, if_neg hab]
          constructor
          · intro h
            exact List.Lex.cons ((ih bs).mp h)
          · intro h
            cases h with
            | cons h3 => exact (ih bs).mpr h3
            | rel h4 => exact absurd h4 hab

lemma pyStrLt_iff_lt (a b : String) : pyStrLt a b = true ↔ a < b := by
  rw [String.lt_iff_toList_lt]
  exact pyStrLtList_iff a.data b.data

lemma pyStrLt_empty (u : String) (hu : u ≠ "") : pyStrLt "" u = true := by
  cases u with
  | mk data =>
    cases data with
    | nil => exact absurd rfl hu
    | cons c cs => rfl

lemma optLe_refl (a : Option String) : optLe a a := by
  cases a with
  | none => trivial
  | some x => exact Or.inr rfl

lemma optLe_trans {a b c : Option String} (h1 : optLe a b) (h2 : optLe b c) :
    optLe a c := by
  cases a with
  | none => trivial
  | some x =>
    cases b with
    | none => exact h1.elim
    | some y =>
      cases c with
      | none => exact h2.elim
      | some z =>
        rcases h1 with h1 | h1
        · rcases h2 with h2 | h2
          · exact Or.inl ((pyStrLt_iff_lt x z).mpr
              (lt_trans ((pyStrLt_iff_lt x y).mp h1) ((pyStrLt_iff_lt y z).mp h2)))
          · subst h2
            exact Or.inl h1
        · subst h1
          exact h2

lemma optLe_trackLatest (latest u : Option String) :
    optLe latest (trackLatest latest u) := by
  cases u with
  | none => exact optLe_refl latest
  | some s =>
    by_cases hb : (s != "" && (!(pyTruthy latest) || pyStrLt (latest.getD "") s)) = true
    · have hd : trackLatest latest (some s)
          = if (s != "" && (!(pyTruthy latest) || pyStrLt (latest.getD "") s)) = true
            then some s else latest := rfl
      have ht : trackLatest latest (some s) = some s := by
        rw [hd, if_pos hb]
      rw [ht]
      cases latest with
      | none => trivial
      | some a =>
        simp only [pyTruthy, Bool.and_eq_true, Bool.or_eq_true, Bool.not_eq_true',
          bne_eq_false_iff_eq, bne_iff_ne, ne_eq, Option.getD_some] at hb
        rcases hb.2 with h2 | h2
        · subst h2
          exact Or.inl (pyStrLt_empty s hb.1)
        · exact Or.inl h2
    · have hd : trackLatest latest (some s)
          = if (s != "" && (!(pyTruthy latest) || pyStrLt (latest.getD "") s)) = true
            then some s else latest := rfl
      have ht : trackLatest latest (some s) = latest := by
        rw [hd, if_neg hb]
      rw [ht]
      exact optLe_refl latest

lemma optLe_foldl_track (issues : List Issue) :
    ∀ latest : Option String,
      optLe latest (issues.foldl (fun acc i => trackLatest acc i.updated) latest) := by
  induction issues with
  | nil => intro latest; exact optLe_refl latest
  | cons i is ih =>
    intro latest
    exact optLe_trans (optLe_trackLatest latest i.updated) (ih _)

lemma load_save_some (store : CheckpointStore) (c : Nat) (w : String) :
    load_checkpoint (save_checkpoint store c (some w)) = ⟨c, some w⟩ := rfl

lemma load_save_none (store : CheckpointStore) (c : Nat) :
    load_checkpoint (save_checkpoint store c none)
      = ⟨c, (load_checkpoint store).last_updated⟩ := rfl

lemma load_save_latest (store : CheckpointStore) (c : Nat) (latest latest' : Option String)
    (hinv : (load_checkpoint store).last_updated = latest)
    (hle : optLe latest latest') :
    load_checkpoint (save_checkpoint store c latest') = ⟨c, latest'⟩ := by
  cases latest' with
  | some w => exact load_save_some store c w
  | none =>
    rw [load_save_none, hinv]
    cases latest with
    | none => rfl
    | some x => exact hle.elim

lemma fetchLoop_wm_chain (cfg : Config) (proj : String) :
    ∀ (script : List (List Outcome)) (start_at : Nat) (latest : Option String)
      (total : Option Nat) (store : CheckpointStore) (sink : List (Nat × List Issue)),
      (load_checkpoint store).last_updated = latest →
      List.Chain' optLe
        (latest ::
          (fetchLoop cfg proj script start_at latest total store sink).cpTrace.map
            (fun cp => cp.last_updated)) := by
  intro script
  induction script with
  | nil =>
    intro start_at latest total store sink _
    simp [fetchLoop]
  | cons outs rest ih =>
    intro start_at latest total store sink hinv
    simp only [fetchLoop]
    cases hres : (fetchPage cfg proj start_at outs 0).result with
    | pending => simp
    | exhausted msg => simp
    | propagated => simp
    | success d =>
      cases hemp : d.issues.isEmpty with
      | true => simp [hemp]
      | false =>
        have hle : optLe latest (d.issues.foldl (fun acc i => trackLatest acc i.updated) latest) :=
          optLe_foldl_track d.issues latest
        have hload :
            load_checkpoint
                (save_checkpoint store (start_at + d.issues.length)
                  (d.issues.foldl (fun acc i => trackLatest acc i.updated) latest))
              = ⟨start_at + d.issues.length,
                  d.issues.foldl (fun acc i => trackLatest acc i.updated) latest⟩ :=
          load_save_latest store _ latest _ hinv hle
        cases hstop :
            shouldStop
              (match d.total with
                | some t => some t
                | none => total)
              (start_at + d.issues.length) with
        | true =>
          simp only [hemp, Bool.false_eq_true, if_false, hstop, if_true, hload,
            List.map_cons, List.map_nil]
          exact List.chain'_cons.mpr ⟨hle, List.chain'_singleton _⟩
        | false =>
          simp only [hemp, Bool.false_eq_true, if_false, hstop, hload, List.map_cons]
          refine List.chain'_cons.mpr ⟨hle, ?_⟩
          have hinv' :
              (load_checkpoint
                  (save_checkpoint store (start_at + d.issues.length)
                    (d.issues.foldl (fun acc i => trackLatest acc i.updated) latest))).last_updated
                = d.issues.foldl (fun acc i => trackLatest acc i.updated) latest := by
            rw [hload]
          exact ih _ _ _ _ _ hinv'

lemma load_save (store : CheckpointStore) (c : Nat) (lu : Option String) :
    load_checkpoint (save_checkpoint store c lu)
      = ⟨c, match lu with
            | none => (load_checkpoint store).last_updated
            | some w => some w⟩ := by
  cases lu with
  | none => rfl
  | some w => rfl

lemma fetchLoop_cursor_chain (cfg : Config) (proj : String) :
    ∀ (script : List (List Outcome)) (start_at : Nat) (latest : Option String)
      (total : Option Nat) (store : CheckpointStore) (sink : List (Nat × List Issue)),
      List.Chain' (fun a b => a < b)
        (start_at ::
          (fetchLoop cfg proj script start_at latest total store sink).cpTrace.map
            (fun cp => cp.start_at)) := by
  intro script
  induction script with
  | nil =>
    intro start_at latest total store sink
    simp [fetchLoop]
  | cons outs rest ih =>
    intro start_at latest total store sink
    simp only [fetchLoop]
    cases hres : (fetchPage cfg proj start_at outs 0).result with
    | pending => simp
    | exhausted msg => simp
    | propagated => simp
    | success d =>
      cases hemp : d.issues.isEmpty with
      | true => simp [hemp]
      | false =>
        have hne : d.issues ≠ [] := by simpa using hemp
        have hlt : start_at < start_at + d.issues.length :=
          Nat.lt_add_of_pos_right (List.length_pos.mpr hne)
        cases hstop :
            shouldStop
              (match d.total with
                | some t => some t
                | none => total)
              (start_at + d.issues.length) with
        | true =>
          simp only [hemp, Bool.false_eq_true, if_false, hstop, if_true, load_save,
            List.map_cons, List.map_nil]
          exact List.chain'_cons.mpr ⟨hlt, List.chain'_singleton _⟩
        | false =>
          simp only [hemp, Bool.false_eq_true, if_false, hstop, load_save, List.map_cons]
          exact List.chain'_cons.mpr ⟨hlt, ih _ _ _ _ _⟩

lemma foldl_track_none (issues : List Issue)
    (h : ∀ i ∈ issues, i.updated = none) :
    ∀ latest : Option String,
      issues.foldl (fun acc i => trackLatest acc i.updated) latest = latest := by
  induction issues with
  | nil => intro latest; rfl
  | cons i is ih =>
    intro latest
    have hi : i.updated = none := h i (List.mem_cons_self i is)
    have hrest : ∀ j ∈ is, j.updated = none := fun j hj => h j (List.mem_cons_of_mem i hj)
    simp only [List.foldl_cons, hi]
    exact ih hrest latest

lemma fetchPage_success_src (cfg : Config) (proj : String) (s : Nat) :
    ∀ (outs : List Outcome) (attempt : Nat) (d : PageData),
      (fetchPage cfg proj s outs attempt).result = ReqResult.success d →
      Outcome.http 200 d ∈ outs := by
  intro outs
  induction outs with
  | nil =>
    intro attempt d h
    exact absurd h (by simp [fetchPage])
  | cons o rest ih =>
    intro attempt d h
    cases o with
    | http status pd =>
      simp only [fetchPage] at h
      split_ifs at h with h1 h2 h3 h4 h5 h6 h7 h8
      · have hpd : ReqResult.success pd = ReqResult.success d := h
        injection hpd with h'
        subst h1
        subst h'
        exact List.mem_cons_self _ _
      all_goals exact List.mem_cons_of_mem _ (ih _ _ h)
    | timeout =>
      simp only [fetchPage] at h
      split_ifs at h
      all_goals exact List.mem_cons_of_mem _ (ih _ _ h)
    | netError =>
      simp only [fetchPage] at h
      split_ifs at h
      all_goals exact List.mem_cons_of_mem _ (ih _ _ h)

lemma fetchLoop_no_updated (cfg : Config) (proj : String) :
    ∀ (script : List (List Outcome)) (start_at : Nat) (total : Option Nat)
      (store : CheckpointStore) (sink : List (Nat × List Issue)),
      (∀ outs ∈ script, ∀ o ∈ outs, ∀ i ∈ issuesOf o, i.updated = none) →
      (load_checkpoint
            (fetchLoop cfg proj script start_at none total store sink).store).last_updated
          = (load_checkpoint store).last_updated ∧
        ∀ cp ∈ (fetchLoop cfg proj script start_at none total store sink).cpTrace,
          cp.last_updated = (load_checkpoint store).last_updated := by
  intro script
  induction script with
  | nil =>
    intro start_at total store sink _
    exact ⟨rfl, by simp [fetchLoop]⟩
  | cons outs rest ih =>
    intro start_at total store sink h
    have houts : ∀ o ∈ outs, ∀ i ∈ issuesOf o, i.updated = none :=
      h outs (List.mem_cons_self outs rest)
    have hrest : ∀ os ∈ rest, ∀ o ∈ os, ∀ i ∈ issuesOf o, i.updated = none :=
      fun os hos => h os (List.mem_cons_of_mem outs hos)
    simp only [fetchLoop]
    cases hres : (fetchPage cfg proj start_at outs 0).result with
    | pending => exact ⟨rfl, by simp⟩
    | exhausted msg => exact ⟨rfl, by simp⟩
    | propagated => exact ⟨rfl, by simp⟩
    | success d =>
      have hd : ∀ i ∈ d.issues, i.updated = none := by
        have hmem := fetchPage_success_src cfg proj start_at outs 0 d hres
        simpa [issuesOf] using houts _ hmem
      have hfold : d.issues.foldl (fun acc i => trackLatest acc i.updated) none = none :=
        foldl_track_none d.issues hd none
      cases hemp : d.issues.isEmpty with
      | true => exact ⟨by simp [hemp], by simp [hemp]⟩
      | false =>
        cases hstop :
            shouldStop
              (match d.total with
                | some t => some t
                | none => total)
              (start_at + d.issues.length) with
        | true =>
          simp only [hemp, Bool.false_eq_true, if_false, hstop, if_true, hfold, load_save]
          constructor
          · trivial
          · intro cp hcp
            simp only [List.mem_singleton] at hcp
            rw [hcp]
        | false =>
          simp only [hemp, Bool.false_eq_true, if_false, hstop, hfold]
          have hstore :
              (load_checkpoint
                  (save_checkpoint store (start_at + d.issues.length) none)).last_updated
                = (load_checkpoint store).last_updated := by
            rw [load_save]
          have hih := ih (start_at + d.issues.length)
            (match d.total with
              | some t => some t
              | none => total)
            (save_checkpoint store (start_at + d.issues.length) none)
            (sinkStore sink start_at d.issues) hrest
          constructor
          · rw [hih.1, hstore]
          · intro cp hcp
            simp only [List.mem_cons] at hcp
            rcases hcp with hcp | hcp
            · rw [hcp, load_save]
            · rw [hih.2 cp hcp, hstore]

lemma fetchPage_all_500 (cfg : Config) (proj : String) (s : Nat) (d : PageData)
    (extra : List Outcome) :
    ∀ (k attempt : Nat), attempt + k = cfg.max_retries + 1 → 1 ≤ k →
      (fetchPage cfg proj s (List.replicate k (Outcome.http 500 d) ++ extra) attempt).result
          = ReqResult.exhausted (retriesExhaustedMsg proj s) ∧
      (fetchPage cfg proj s (List.replicate k (Outcome.http 500 d) ++ extra) attempt).requests
          = k := by
  intro k
  induction k with
  | zero =>
    intro attempt h h1
    omega
  | succ n ih =>
    intro attempt h _
    simp only [List.replicate_succ, List.cons_append, fetchPage]
    have c1 : ¬ ((500 : Nat) = 200) := by omega
    have c2 : ¬ ((500 : Nat) = 429) := by omega
    have c3 : (500 : Nat) ≤ 500 ∧ (500 : Nat) < 600 := by omega
    rw [if_neg c1, if_neg c2, if_pos c3]
    by_cases hn : n = 0
    · subst hn
      have hgt : attempt + 1 > cfg.max_retries := by omega
      rw [if_pos hgt]
      exact ⟨rfl, rfl⟩
    · have hle : ¬ (attempt + 1 > cfg.max_retries) := by omega
      rw [if_neg hle]
      have hrec := ih (attempt + 1) (by omega) (by omega)
      exact ⟨hrec.1, congrArg (fun x => x + 1) hrec.2⟩

lemma fetchLoop_head_request (cfg : Config) (proj : String) (outs : List Outcome)
    (rest : List (List Outcome)) (start_at : Nat) (latest : Option String)
    (total : Option Nat) (store : CheckpointStore) (sink : List (Nat × List Issue)) :
    (fetchLoop cfg proj (outs :: rest) start_at latest total store sink).requests.head?
      = some start_at := by
  simp only [fetchLoop]
  cases hres : (fetchPage cfg proj start_at outs 0).result with
  | pending => rfl
  | exhausted msg => rfl
  | propagated => rfl
  | success d =>
    cases hemp : d.issues.isEmpty with
    | true => simp [hemp]
    | false =>
      cases hstop :
          shouldStop
            (match d.total with
              | some t => some t
              | none => total)
            (start_at + d.issues.length) with
      | true => simp [hemp, hstop]
      | false => simp [hemp, hstop]

/-- Claim C1, amended: within a single run that starts from a checkpoint with
no persisted watermark, the watermark persisted by save_checkpoint after
ingestion N is greater than or equal to the watermark persisted after
ingestion N-1.  As frozen the claim also covers ingestions split across
separate resumed runs, and there it fails (see the counterexample): the
run-local maximum latest_update_seen starts at null on every run and
save_checkpoint overwrites the persisted watermark with any non-null value,
so a successful page ingestion in a resumed run can roll the watermark back. -/
theorem c1_watermark_monotone_within_run (cfg : Config) (proj : String)
    (nowMinusDays : Nat → String) (script : List (List Outcome))
    (store0 : CheckpointStore)
    (h : (load_checkpoint store0).last_updated = none) :
    List.Chain' optLe
      ((runProject cfg proj nowMinusDays script store0).cpTrace.map
        (fun cp => cp.last_updated)) := by
  have hchain := fetchLoop_wm_chain cfg proj script (load_checkpoint store0).start_at
    none none store0 [] h
  exact hchain.tail

/-- Witness for claim C1: a concrete fresh run with two ingested pages, whose
persisted watermarks form an optLe chain. -/
theorem c1_watermark_monotone_within_run_witness :
    List.Chain' optLe
      ((runProject {} "HADOOP" (fun _ => "2025-01-01")
          [[Outcome.http 200 ⟨[⟨some "2025-06-01T10:00:00.000+0000"⟩], some 5⟩],
            [Outcome.http 200 ⟨[⟨some "2025-06-02T10:00:00.000+0000"⟩], some 5⟩]]
          ⟨none, none⟩).cpTrace.map (fun cp => cp.last_updated)) :=
  c1_watermark_monotone_within_run {} "HADOOP" (fun _ => "2025-01-01")
    [[Outcome.http 200 ⟨[⟨some "2025-06-01T10:00:00.000+0000"⟩], some 5⟩],
      [Outcome.http 200 ⟨[⟨some "2025-06-02T10:00:00.000+0000"⟩], some 5⟩]]
    ⟨none, none⟩ rfl

/-- Counterexample to claim C1 as stated: run 1 ingests one page and persists
watermark 2025-06-01T12, run 2 resumes from the persisted checkpoint, ingests
one page whose only record carries the earlier same-day timestamp
2025-06-01T00, and the persisted watermark after that successful ingestion is
strictly below the watermark persisted after the previous ingestion. -/
theorem c1_watermark_rollback_counterexample :
    (runProject { incremental := true } "HADOOP" (fun _ => "2025-05-25")
        [[Outcome.http 200 ⟨[⟨some "2025-06-01T12:00:00.000+0000"⟩], some 1⟩]]
        ⟨none, none⟩).cpTrace.map (fun cp => cp.last_updated)
      = [some "2025-06-01T12:00:00.000+0000"] ∧
    (runProject { incremental := true } "HADOOP" (fun _ => "2025-05-25")
        [[Outcome.http 200 ⟨[⟨some "2025-06-01T00:00:00.000+0000"⟩], some 2⟩]]
        (runProject { incremental := true } "HADOOP" (fun _ => "2025-05-25")
          [[Outcome.http 200 ⟨[⟨some "2025-06-01T12:00:00.000+0000"⟩], some 1⟩]]
          ⟨none, none⟩).store).cpTrace.map (fun cp => cp.last_updated)
      = [some "2025-06-01T00:00:00.000+0000"] ∧
    ¬ optLe (some "2025-06-01T12:00:00.000+0000") (some "2025-06-01T00:00:00.000+0000") := by
  decide

/-- Claim C2: a collection whose requests all return HTTP 500 aborts with the
dedicated retries-exhausted RuntimeError naming the collection and the offset
at which it occurred, after exactly max_retries + 1 request attempts, and the
persisted checkpoint is left at its pre-run value. -/
theorem c2_retries_exhausted (cfg : Config) (proj : String)
    (nowMinusDays : Nat → String) (store : CheckpointStore) (d : PageData)
    (extra : List Outcome) :
    (fetchPage cfg proj (load_checkpoint store).start_at
          (List.replicate (cfg.max_retries + 1) (Outcome.http 500 d) ++ extra) 0).result
        = ReqResult.exhausted (retriesExhaustedMsg proj (load_checkpoint store).start_at) ∧
    (fetchPage cfg proj (load_checkpoint store).start_at
          (List.replicate (cfg.max_retries + 1) (Outcome.http 500 d) ++ extra) 0).requests
        = cfg.max_retries + 1 ∧
    (runProject cfg proj nowMinusDays
          [List.replicate (cfg.max_retries + 1) (Outcome.http 500 d) ++ extra] store).outcome
        = RunOutcome.aborted (retriesExhaustedMsg proj (load_checkpoint store).start_at) ∧
    (runProject cfg proj nowMinusDays
          [List.replicate (cfg.max_retries + 1) (Outcome.http 500 d) ++ extra] store).store
        = store := by
  have hall := fetchPage_all_500 cfg proj (load_checkpoint store).start_at d extra
    (cfg.max_retries + 1) 0 (by omega) (by omega)
  refine ⟨hall.1, hall.2, ?_, ?_⟩ <;>
    simp [runProject, fetchLoop, hall.1]

/-- Claim C3, amended: load_checkpoint returns the last persisted checkpoint,
returns the zero-value when no checkpoint exists, and never raises; but on a
corrupt or unreadable JSON record it first falls back to the legacy text
checkpoint when that is present and readable (yielding its cursor with a null
watermark), and only resets to the zero-value when the legacy record too is
absent or unreadable. -/
theorem c3_load_checkpoint_fallback (cp : Checkpoint) (n : Nat) :
    load_checkpoint ⟨some (JsonRecord.valid cp), some (LegacyRecord.valid n)⟩ = cp ∧
    load_checkpoint ⟨some (JsonRecord.valid cp), none⟩ = cp ∧
    load_checkpoint ⟨none, none⟩ = ⟨0, none⟩ ∧
    load_checkpoint ⟨some JsonRecord.corrupt, some (LegacyRecord.valid n)⟩ = ⟨n, none⟩ ∧
    load_checkpoint ⟨some JsonRecord.corrupt, some LegacyRecord.corrupt⟩ = ⟨0, none⟩ ∧
    load_checkpoint ⟨some JsonRecord.corrupt, none⟩ = ⟨0, none⟩ ∧
    load_checkpoint ⟨none, some (LegacyRecord.valid n)⟩ = ⟨n, none⟩ ∧
    load_checkpoint ⟨none, some LegacyRecord.corrupt⟩ = ⟨0, none⟩ :=
  ⟨rfl, rfl, rfl, rfl, rfl, rfl, rfl, rfl⟩

/-- Counterexample to claim C3 as stated: with a corrupt JSON checkpoint and
a readable legacy text checkpoint holding offset 50, load_checkpoint recovers
to the legacy cursor 50, not to the zero-value. -/
theorem c3_corrupt_not_zero_counterexample :
    load_checkpoint ⟨some JsonRecord.corrupt, some (LegacyRecord.valid 50)⟩ = ⟨50, none⟩ ∧
    load_checkpoint ⟨some JsonRecord.corrupt, some (LegacyRecord.valid 50)⟩
      ≠ ⟨0, none⟩ := by
  decide

/-- Claim C4: for a collection with a previously persisted watermark, calling
save_checkpoint with the watermark argument omitted (None) persists the new
cursor while a subsequent load_checkpoint returns the previously persisted
watermark unchanged. -/
theorem c4_save_preserves_watermark (store : CheckpointStore) (c : Nat) (w : String)
    (h : (load_checkpoint store).last_updated = some w) :
    load_checkpoint (save_checkpoint store c none) = ⟨c, some w⟩ := by
  rw [load_save_none, h]

/-- Witness for claim C4: a store persisted with watermark
2025-01-15T12:34:56.789Z keeps it across save_checkpoint with cursor 80 and
no watermark argument. -/
theorem c4_save_preserves_watermark_witness :
    load_checkpoint
        (save_checkpoint
          ⟨some (JsonRecord.valid ⟨0, some "2025-01-15T12:34:56.789Z"⟩), none⟩ 80 none)
      = ⟨80, some "2025-01-15T12:34:56.789Z"⟩ :=
  c4_save_preserves_watermark
    ⟨some (JsonRecord.valid ⟨0, some "2025-01-15T12:34:56.789Z"⟩), none⟩ 80
    "2025-01-15T12:34:56.789Z" rfl

/-- Claim C5: the incremental JQL filter is the unrestricted project filter
when incremental is off; restricts to records updated on or after the date
portion (day granularity) of the watermark when incremental is on and a
watermark is present; and restricts to records updated on or after the
formatted date of now minus the lookback window when incremental is on and
no watermark exists. -/
theorem c5_incremental_filter (proj : String) (lu : Option String) (w : String)
    (lookbackDate : String) (hw : w ≠ "") :
    buildJql proj false lu lookbackDate = "project=" ++ proj ∧
    buildJql proj true (some w) lookbackDate
      = "project=" ++ proj ++ " AND updated >= \x27" ++ datePart w ++ "\x27" ∧
    buildJql proj true none lookbackDate
      = "project=" ++ proj ++ " AND updated >= \x27" ++ lookbackDate ++ "\x27" := by
  refine ⟨rfl, ?_, rfl⟩
  unfold buildJql
  have hpt : pyTruthy (some w) = true := by
    simp [pyTruthy, hw]
  rw [hpt]
  rfl

/-- Witness for claim C5: concrete filters for project HADOOP with watermark
2025-01-03T10:00:00.000+0000 and lookback date 2025-01-05. -/
theorem c5_incremental_filter_witness :
    buildJql "HADOOP" false none "2025-01-05" = "project=" ++ "HADOOP" ∧
    buildJql "HADOOP" true (some "2025-01-03T10:00:00.000+0000") "2025-01-05"
      = "project=" ++ "HADOOP" ++ " AND updated >= \x27"
          ++ datePart "2025-01-03T10:00:00.000+0000" ++ "\x27" ∧
    buildJql "HADOOP" true none "2025-01-05"
      = "project=" ++ "HADOOP" ++ " AND updated >= \x27" ++ "2025-01-05" ++ "\x27" :=
  c5_incremental_filter "HADOOP" none "2025-01-03T10:00:00.000+0000" "2025-01-05"
    (by decide)

/-- Claim C6: within one page fetch, a 429 response sleeps the fixed
configured rate-limit delay (two consecutive 429 responses sleep the
identical duration), while a 5xx response or a request timeout sleeps
backoff_base to the power of the attempt counter; each retry branch
increments the counter, so responses 500, 500, 200 starting at attempt 0
sleep backoff_base to the 0 and then backoff_base to the 1 before success. -/
theorem c6_backoff_policy (cfg : Config) (proj : String) (s : Nat) (d : PageData)
    (h : 2 ≤ cfg.max_retries) :
    (fetchPage cfg proj s [Outcome.http 429 d, Outcome.http 429 d, Outcome.http 200 d] 0).sleeps
        = [cfg.rate_limit_sleep, cfg.rate_limit_sleep] ∧
    (fetchPage cfg proj s [Outcome.http 429 d, Outcome.http 429 d, Outcome.http 200 d] 0).result
        = ReqResult.success d ∧
    (fetchPage cfg proj s [Outcome.http 500 d, Outcome.http 500 d, Outcome.http 200 d] 0).sleeps
        = [cfg.backoff_base ^ 0, cfg.backoff_base ^ 1] ∧
    (fetchPage cfg proj s [Outcome.http 500 d, Outcome.http 500 d, Outcome.http 200 d] 0).result
        = ReqResult.success d ∧
    (fetchPage cfg proj s [Outcome.timeout, Outcome.http 200 d] 0).sleeps
        = [cfg.backoff_base ^ 0] := by
  have h1 : ¬ (0 + 1 > cfg.max_retries) := by omega
  have h2 : ¬ (1 + 1 > cfg.max_retries) := by omega
  refine ⟨?_, ?_, ?_, ?_, ?_⟩ <;>
    simp [fetchPage, h1, h2]

/-- Witness for claim C6 at the default configuration: the sleeps are 30, 30
for two 429 responses and 1, 2 for two 500 responses. -/
theorem c6_backoff_policy_witness :
    (fetchPage {} "HADOOP" 0
          [Outcome.http 429 ⟨[], none⟩, Outcome.http 429 ⟨[], none⟩,
            Outcome.http 200 ⟨[], none⟩] 0).sleeps
        = [Config.rate_limit_sleep {}, Config.rate_limit_sleep {}] ∧
    (fetchPage {} "HADOOP" 0
          [Outcome.http 429 ⟨[], none⟩, Outcome.http 429 ⟨[], none⟩,
            Outcome.http 200 ⟨[], none⟩] 0).result
        = ReqResult.success ⟨[], none⟩ ∧
    (fetchPage {} "HADOOP" 0
          [Outcome.http 500 ⟨[], none⟩, Outcome.http 500 ⟨[], none⟩,
            Outcome.http 200 ⟨[], none⟩] 0).sleeps
        = [Config.backoff_base {} ^ 0, Config.backoff_base {} ^ 1] ∧
    (fetchPage {} "HADOOP" 0
          [Outcome.http 500 ⟨[], none⟩, Outcome.http 500 ⟨[], none⟩,
            Outcome.http 200 ⟨[], none⟩] 0).result
        = ReqResult.success ⟨[], none⟩ ∧
    (fetchPage {} "HADOOP" 0 [Outcome.timeout, Outcome.http 200 ⟨[], none⟩] 0).sleeps
        = [Config.backoff_base {} ^ 0] :=
  c6_backoff_policy {} "HADOOP" 0 ⟨[], none⟩ (by decide)

/-- Claim C7: when a successfully fetched page has an empty record sequence,
or the cursor after ingestion reaches or exceeds the last-known total, the
fetch loop terminates in state done and issues no further request for the
collection, whatever the rest of the script would have answered. -/
theorem c7_termination (cfg : Config) (proj : String) (nowMinusDays : Nat → String)
    (store : CheckpointStore) (rest : List (List Outcome)) (d : PageData)
    (h : d.issues = [] ∨
      ∃ t, d.total = some t ∧ t ≤ (load_checkpoint store).start_at + d.issues.length) :
    (runProject cfg proj nowMinusDays ([Outcome.http 200 d] :: rest) store).outcome
        = RunOutcome.done ∧
    (runProject cfg proj nowMinusDays ([Outcome.http 200 d] :: rest) store).requests
        = [(load_checkpoint store).start_at] := by
  have hres :
      (fetchPage cfg proj (load_checkpoint store).start_at [Outcome.http 200 d] 0).result
        = ReqResult.success d := by
    simp [fetchPage]
  rcases h with hemp | ⟨t, ht, hge⟩
  · constructor <;> simp [runProject, fetchLoop, hres, hemp]
  · by_cases hemp : d.issues.isEmpty = true
    · constructor <;> simp [runProject, fetchLoop, hres, hemp]
    · have hstop :
          shouldStop
            (match d.total with
              | some t' => some t'
              | none => (none : Option Nat))
            ((load_checkpoint store).start_at + d.issues.length) = true := by
        rw [ht]
        simp only [shouldStop, decide_eq_true_eq]
        exact hge
      constructor <;> simp [runProject, fetchLoop, hres, hemp, hstop]

/-- Witness for claim C7: a page with an empty record sequence terminates a
fresh run in state done with a single request at offset 0. -/
theorem c7_termination_witness :
    (runProject {} "HADOOP" (fun _ => "2025-01-01")
          [[Outcome.http 200 ⟨[], none⟩], [Outcome.http 200 ⟨[], none⟩]]
          ⟨none, none⟩).outcome
        = RunOutcome.done ∧
    (runProject {} "HADOOP" (fun _ => "2025-01-01")
          [[Outcome.http 200 ⟨[], none⟩], [Outcome.http 200 ⟨[], none⟩]]
          ⟨none, none⟩).requests
        = [(load_checkpoint ⟨none, none⟩).start_at] :=
  c7_termination {} "HADOOP" (fun _ => "2025-01-01") ⟨none, none⟩
    [[Outcome.http 200 ⟨[], none⟩]] ⟨[], none⟩ (Or.inl rfl)

/-- Claim C8: for a collection whose persisted checkpoint holds cursor c and
watermark w, a fresh run issues its first page request at offset c and, with
incremental mode on, computes the JQL filter from the date portion of w. -/
theorem c8_resumability (cfg : Config) (proj : String) (nowMinusDays : Nat → String)
    (store : CheckpointStore) (outs : List Outcome) (rest : List (List Outcome))
    (c : Nat) (w : String)
    (hload : load_checkpoint store = ⟨c, some w⟩) (hw : w ≠ "")
    (hinc : cfg.incremental = true) :
    (runProject cfg proj nowMinusDays (outs :: rest) store).requests.head? = some c ∧
    (runProject cfg proj nowMinusDays (outs :: rest) store).jql
      = "project=" ++ proj ++ " AND updated >= \x27" ++ datePart w ++ "\x27" := by
  constructor
  · have h1 : (runProject cfg proj nowMinusDays (outs :: rest) store).requests.head?
        = some (load_checkpoint store).start_at :=
      fetchLoop_head_request cfg proj outs rest (load_checkpoint store).start_at
        none none store []
    rw [hload] at h1
    exact h1
  · have hjql : (runProject cfg proj nowMinusDays (outs :: rest) store).jql
        = buildJql proj cfg.incremental (load_checkpoint store).last_updated
            (nowMinusDays cfg.lookback_days) := rfl
    rw [hjql, hload, hinc]
    unfold buildJql
    have hpt : pyTruthy (some w) = true := by
      simp [pyTruthy, hw]
    rw [hpt]
    rfl

/-- Witness for claim C8: a persisted checkpoint with cursor 42 and watermark
2025-01-15T12:34:56.789Z resumes at offset 42 with the filter computed from
the date 2025-01-15. -/
theorem c8_resumability_witness :
    (runProject { incremental := true } "HADOOP" (fun _ => "2025-01-01") [[]]
          ⟨some (JsonRecord.valid ⟨42, some "2025-01-15T12:34:56.789Z"⟩), none⟩).requests.head?
        = some 42 ∧
    (runProject { incremental := true } "HADOOP" (fun _ => "2025-01-01") [[]]
          ⟨some (JsonRecord.valid ⟨42, some "2025-01-15T12:34:56.789Z"⟩), none⟩).jql
        = "project=" ++ "HADOOP" ++ " AND updated >= \x27"
            ++ datePart "2025-01-15T12:34:56.789Z" ++ "\x27" :=
  c8_resumability { incremental := true } "HADOOP" (fun _ => "2025-01-01")
    ⟨some (JsonRecord.valid ⟨42, some "2025-01-15T12:34:56.789Z"⟩), none⟩ [] []
    42 "2025-01-15T12:34:56.789Z" rfl (by decide) rfl

/-- Claim C9: starting from checkpoint cursor 0 with no watermark, with
incremental mode on and a 7-day lookback window, the filter restricts to
records updated on or after the formatted date of now minus 7 days; after
ingesting one page of 3 records with updated values 2025-01-01T,
2025-01-03T and 2025-01-02T the persisted checkpoint holds cursor 3 and
watermark 2025-01-03T, the lexicographic maximum of the page records. -/
theorem c9_lookback_scenario (nowMinusDays : Nat → String) :
    (runProject { incremental := true, lookback_days := 7 } "HADOOP" nowMinusDays
        [[Outcome.http 200
            ⟨[⟨some "2025-01-01T10:00:00.000+0000"⟩, ⟨some "2025-01-03T10:00:00.000+0000"⟩,
              ⟨some "2025-01-02T10:00:00.000+0000"⟩], some 3⟩]]
        ⟨none, none⟩).jql
      = "project=HADOOP AND updated >= \x27" ++ nowMinusDays 7 ++ "\x27" ∧
    load_checkpoint
        (runProject { incremental := true, lookback_days := 7 } "HADOOP" nowMinusDays
          [[Outcome.http 200
              ⟨[⟨some "2025-01-01T10:00:00.000+0000"⟩, ⟨some "2025-01-03T10:00:00.000+0000"⟩,
                ⟨some "2025-01-02T10:00:00.000+0000"⟩], some 3⟩]]
          ⟨none, none⟩).store
      = ⟨3, some "2025-01-03T10:00:00.000+0000"⟩ :=
  ⟨rfl, rfl⟩

/-- Claim C10: records lacking an updated field are ignored by the
watermark-tracking step; in a run in which no fetched record carries an
updated field, every checkpoint persisted after a page ingestion keeps the
previously persisted watermark unchanged (save_checkpoint is invoked with a
null watermark and takes its partial-update path) while the persisted cursor
strictly advances with every ingested page, and the final persisted
watermark equals the pre-run one. -/
theorem c10_no_updated_field (cfg : Config) (proj : String)
    (nowMinusDays : Nat → String) (store : CheckpointStore)
    (script : List (List Outcome))
    (h : ∀ outs ∈ script, ∀ o ∈ outs, ∀ i ∈ issuesOf o, i.updated = none) :
    (∀ latest : Option String, trackLatest latest none = latest) ∧
    (load_checkpoint (runProject cfg proj nowMinusDays script store).store).last_updated
        = (load_checkpoint store).last_updated ∧
    (∀ cp ∈ (runProject cfg proj nowMinusDays script store).cpTrace,
        cp.last_updated = (load_checkpoint store).last_updated) ∧
    List.Chain' (fun a b => a < b)
      ((load_checkpoint store).start_at
        :: (runProject cfg proj nowMinusDays script store).cpTrace.map
            (fun cp => cp.start_at)) := by
  have hno := fetchLoop_no_updated cfg proj script (load_checkpoint store).start_at
    none store [] h
  have hcur := fetchLoop_cursor_chain cfg proj script (load_checkpoint store).start_at
    none none store []
  exact ⟨fun latest => rfl, hno.1, hno.2, hcur⟩

/-- Witness for claim C10: a run over one page of two records without
updated fields, resumed from a checkpoint with cursor 5 and watermark
2025-01-01T, keeps the watermark in every persisted checkpoint and advances
the cursor. -/
theorem c10_no_updated_field_witness :
    (∀ latest : Option String, trackLatest latest none = latest) ∧
    (load_checkpoint
          (runProject {} "HADOOP" (fun _ => "2025-01-01")
            [[Outcome.http 200 ⟨[⟨none⟩, ⟨none⟩], some 99⟩], [Outcome.http 200 ⟨[], none⟩]]
            ⟨some (JsonRecord.valid ⟨5, some "2025-01-01T00:00:00.000+0000"⟩),
              none⟩).store).last_updated
        = (load_checkpoint
            ⟨some (JsonRecord.valid ⟨5, some "2025-01-01T00:00:00.000+0000"⟩),
              none⟩).last_updated ∧
    (∀ cp ∈ (runProject {} "HADOOP" (fun _ => "2025-01-01")
          [[Outcome.http 200 ⟨[⟨none⟩, ⟨none⟩], some 99⟩], [Outcome.http 200 ⟨[], none⟩]]
          ⟨some (JsonRecord.valid ⟨5, some "2025-01-01T00:00:00.000+0000"⟩), none⟩).cpTrace,
        cp.last_updated
          = (load_checkpoint
              ⟨some (JsonRecord.valid ⟨5, some "2025-01-01T00:00:00.000+0000"⟩),
                none⟩).last_updated) ∧
    List.Chain' (fun a b => a < b)
      ((load_checkpoint
            ⟨some (JsonRecord.valid ⟨5, some "2025-01-01T00:00:00.000+0000"⟩),
              none⟩).start_at
        :: (runProject {} "HADOOP" (fun _ => "2025-01-01")
            [[Outcome.http 200 ⟨[⟨none⟩, ⟨none⟩], some 99⟩], [Outcome.http 200 ⟨[], none⟩]]
            ⟨some (JsonRecord.valid ⟨5, some "2025-01-01T00:00:00.000+0000"⟩),
              none⟩).cpTrace.map (fun cp => cp.start_at)) :=
  c10_no_updated_field {} "HADOOP" (fun _ => "2025-01-01")
    ⟨some (JsonRecord.valid ⟨5, some "2025-01-01T00:00:00.000+0000"⟩), none⟩
    [[Outcome.http 200 ⟨[⟨none⟩, ⟨none⟩], some 99⟩], [Outcome.http 200 ⟨[], none⟩]]
    (by decide)
